import Mathlib

/-!
Verification development for the MSL utilities module
(resources/lib/services/nfsession/msl/msl_utils.py) of the
plugin.video.netflix repository.

The module is embedded shallowly: the manifest / player-state dictionaries
become structures, the matcher loops become structural recursion on lists,
Python exceptions become an explicit error type returned through `Except`,
and the two collaborator functions that live outside this module
(`common.convert_language_iso` and `common.apply_lang_code_changes`) are
passed in as opaque function parameters, exactly as wide as the call sites
use them.
-/

/-- Audio stream entry of an AudioTrack in the manifest: the fields
`_find_audio_data` reads (`downloadable_id`, `bitrate`). -/
structure AudioStream where
  downloadable_id : String
  bitrate : Int
deriving DecidableEq, Repr

/-- AudioTrack entry of `manifest['audio_tracks']`: the fields
`_find_audio_data` reads. -/
structure AudioTrack where
  language : String
  channels : String
  new_track_id : String
  streams : List AudioStream
deriving DecidableEq, Repr

/-- Video stream entry of a VideoTrack in the manifest: the fields
`_find_video_data` reads (`downloadable_id`, `content_profile`, `res_w`,
`res_h`). -/
structure VideoStream where
  downloadable_id : String
  content_profile : String
  res_w : Int
  res_h : Int
deriving DecidableEq, Repr

/-- VideoTrack entry of `manifest['video_tracks']`. -/
structure VideoTrack where
  new_track_id : String
  streams : List VideoStream
deriving DecidableEq, Repr

/-- SubtitleTrack entry of `manifest['timedtexttracks']`.  The matcher only
reads `isNoneTrack` and `new_track_id`; the `language` field is carried so
that independence from it can be stated. -/
structure SubtitleTrack where
  new_track_id : String
  isNoneTrack : Bool
  language : String
deriving DecidableEq, Repr

/-- The manifest as read by this module. -/
structure Manifest where
  audio_tracks : List AudioTrack
  video_tracks : List VideoTrack
  timedtexttracks : List SubtitleTrack
deriving DecidableEq, Repr

/-- `player_state['currentaudiostream']`: language tag and channel count. -/
structure AudioDescriptor where
  language : String
  channels : Int
deriving DecidableEq, Repr

/-- `player_state['currentvideostream']`: codec, width and height. -/
structure VideoDescriptor where
  codec : String
  width : Int
  height : Int
deriving DecidableEq, Repr

/-- `player_state['currentsubtitle']`: the subtitle descriptor, present in
the player state but deliberately not compared by `is_media_changed`. -/
structure SubtitleDescriptor where
  language : String
deriving DecidableEq, Repr

/-- The player state snapshot as read by this module. -/
structure PlayerState where
  currentaudiostream : AudioDescriptor
  currentvideostream : VideoDescriptor
  currentsubtitle : SubtitleDescriptor
  elapsed_seconds : Int
deriving DecidableEq, Repr

/-- Media kinds of the track matchers. -/
inductive TrackKind where
  | audio
  | video
  | subtitle
deriving DecidableEq, Repr

/-- Failures of the matchers, embedding the Python exceptions:
`trackNotFound k` is the explicit `raise Exception('build_media_tag:
unable to find ... data ...')` at the end of each matcher,
`unsupportedChannelLayout n` is the `KeyError` raised by the
`AUDIO_CHANNELS_CONV[...]` lookup on a channel count outside the table,
and `emptyStreams` is the `ValueError` raised by `max([])` when a matched
audio track has no streams. -/
inductive MatchError where
  | trackNotFound (kind : TrackKind)
  | unsupportedChannelLayout (channels : Int)
  | emptyStreams
deriving DecidableEq, Repr

/-- The fixed table `AUDIO_CHANNELS_CONV = {1: '1.0', 2: '2.0', 6: '5.1',
8: '7.1'}`; a Python dict lookup on any other key raises `KeyError`, here
`none`. -/
def AUDIO_CHANNELS_CONV (channels : Int) : Option String :=
  if channels = 1 then some ("1.0")
  else if channels = 2 then some ("2.0")
  else if channels = 6 then some ("5.1")
  else if channels = 8 then some ("7.1")
  else none

/-- Language normalization of `_find_audio_data`:
`language = common.convert_language_iso(raw)`, falling back to the raw tag
when the conversion yields an empty (falsy) string.
`common.convert_language_iso` is a collaborator outside this module and is
passed in as the opaque `conv`. -/
def convertLanguage (conv : String → String) (raw : String) : String :=
  let language := conv raw
  if language = "" then raw else language

/-- One step of Python `max(..., key=lambda x: x['bitrate'])`: the running
maximum is replaced only when the new element's key is strictly greater,
so the first occurrence of the maximal bitrate wins. -/
def maxStep (acc x : AudioStream) : AudioStream :=
  if acc.bitrate < x.bitrate then x else acc

/-- Python `max(streams, key=lambda x: x['bitrate'])`: `none` on an empty
list (Python raises `ValueError`), otherwise the fold of `maxStep` over
the tail starting from the head. -/
def maxByBitrate : List AudioStream → Option AudioStream
  | [] => none
  | s :: rest => some (rest.foldl maxStep s)

/-- The `for audio_track in manifest['audio_tracks']` loop of
`_find_audio_data`: first track whose `language` and `channels` equal the
normalized values wins; inside it the maximal-bitrate stream is selected;
an empty stream list surfaces the `max([])` failure; an exhausted loop is
the final `raise`. -/
def findAudioLoop (language channels : String) :
    List AudioTrack → Except MatchError (String × String)
  | [] => .error (.trackNotFound .audio)
  | t :: rest =>
    if t.language = language ∧ t.channels = channels then
      match maxByBitrate t.streams with
      | none => .error .emptyStreams
      | some stream => .ok (stream.downloadable_id, t.new_track_id)
    else findAudioLoop language channels rest

/-- `_find_audio_data(player_state, manifest)`: normalize the language,
convert the channel count through `AUDIO_CHANNELS_CONV` (a `KeyError`
becomes `unsupportedChannelLayout`), then scan the audio tracks. -/
def findAudioData (conv : String → String) (player_state : PlayerState)
    (manifest : Manifest) : Except MatchError (String × String) :=
  let language := convertLanguage conv player_state.currentaudiostream.language
  match AUDIO_CHANNELS_CONV player_state.currentaudiostream.channels with
  | none => .error (.unsupportedChannelLayout player_state.currentaudiostream.channels)
  | some channels => findAudioLoop language channels manifest.audio_tracks

/-- Scan for `pat` as a contiguous sublist of `s`: the Python substring
test `pat in s` on the character sequence. -/
def strContainsAux (pat : List Char) : List Char → Bool
  | [] => pat.isEmpty
  | c :: rest => List.isPrefixOf pat (c :: rest) || strContainsAux pat rest

/-- Python `pat in hay` on strings: substring containment. -/
def strContains (hay pat : String) : Bool :=
  strContainsAux pat.data hay.data

/-- The stream condition of `_find_video_data`:
`codec in stream['content_profile'] and width == stream['res_w'] and
height == stream['res_h']`. -/
def videoStreamMatch (codec : String) (width height : Int) (s : VideoStream) : Bool :=
  strContains s.content_profile codec
    && decide (width = s.res_w) && decide (height = s.res_h)

/-- The inner `for stream in video_track['streams']` loop of
`_find_video_data`: first matching stream, if any. -/
def findVideoStreamLoop (codec : String) (width height : Int) :
    List VideoStream → Option VideoStream
  | [] => none
  | s :: rest =>
    if videoStreamMatch codec width height s then some s
    else findVideoStreamLoop codec width height rest

/-- The outer `for video_track in manifest['video_tracks']` loop of
`_find_video_data`: a match in a track's streams returns from both loops;
an exhausted loop is the final `raise`. -/
def findVideoLoop (codec : String) (width height : Int) :
    List VideoTrack → Except MatchError (String × String)
  | [] => .error (.trackNotFound .video)
  | t :: rest =>
    match findVideoStreamLoop codec width height t.streams with
    | some stream => .ok (stream.downloadable_id, t.new_track_id)
    | none => findVideoLoop codec width height rest

/-- `_find_video_data(player_state, manifest)`. -/
def findVideoData (player_state : PlayerState) (manifest : Manifest) :
    Except MatchError (String × String) :=
  findVideoLoop player_state.currentvideostream.codec
    player_state.currentvideostream.width
    player_state.currentvideostream.height
    manifest.video_tracks

/-- The `for sub_track in manifest['timedtexttracks']` loop of
`_find_subtitle_data`: first track with truthy `isNoneTrack`; an exhausted
loop is the final `raise`. -/
def findSubtitleLoop : List SubtitleTrack → Except MatchError String
  | [] => .error (.trackNotFound .subtitle)
  | t :: rest => if t.isNoneTrack then .ok t.new_track_id else findSubtitleLoop rest

/-- `_find_subtitle_data(manifest)`. -/
def findSubtitleData (manifest : Manifest) : Except MatchError String :=
  findSubtitleLoop manifest.timedtexttracks

/-- One entry of the `audio` / `video` lists inside `play_times`. -/
structure PlayTimeEntry where
  downloadableId : String
  duration : Int
deriving DecidableEq, Repr

/-- The `play_times` dictionary built by `build_media_tag`. -/
structure PlayTimes where
  total : Int
  audio : List PlayTimeEntry
  video : List PlayTimeEntry
  text : List PlayTimeEntry
deriving DecidableEq, Repr

/-- The in-place `common.apply_lang_code_changes(manifest['audio_tracks'])`
call at the top of `build_media_tag`; the collaborator lives outside this
module and is passed in as the opaque transform `f` of the audio track
list. -/
def applyLangManifest (f : List AudioTrack → List AudioTrack) (m : Manifest) : Manifest :=
  { m with audio_tracks := f m.audio_tracks }

/-- `build_media_tag(player_state, manifest, position)`: apply the language
code changes, run the three matchers (any failure propagates), set
`duration = position - 1`, and assemble `(play_times, video_track_id,
audio_track_id, text_track_id)`. -/
def buildMediaTag (conv : String → String) (f : List AudioTrack → List AudioTrack)
    (player_state : PlayerState) (manifest : Manifest) (position : Int) :
    Except MatchError (PlayTimes × String × String × String) := do
  let m := applyLangManifest f manifest
  let audio ← findAudioData conv player_state m
  let video ← findVideoData player_state m
  let text_track_id ← findSubtitleData m
  let duration := position - 1
  pure ({ total := duration,
          audio := [{ downloadableId := audio.1, duration := duration }],
          video := [{ downloadableId := video.1, duration := duration }],
          text := [] },
        video.2, audio.2, text_track_id)

/-- `is_media_changed(previous_player_state, player_state)`: `True` when
there is no previous state, otherwise `True` exactly when the video or the
audio stream descriptor changed; the subtitle descriptor is deliberately
not compared. -/
def is_media_changed (previous_player_state : Option PlayerState)
    (player_state : PlayerState) : Bool :=
  match previous_player_state with
  | none => true
  | some prev =>
    if player_state.currentvideostream ≠ prev.currentvideostream
        ∨ player_state.currentaudiostream ≠ prev.currentaudiostream then true
    else false

/-- Session metadata read from `G.LOCAL_DB.get_value(..., table=TABLE_SESSION)`
by `create_req_params`; the store is a collaborator outside this module, so
its four values are supplied as a record. -/
structure SessionMeta where
  build_identifier : String
  browser_info_version : String
  browser_info_os_name : String
  browser_info_os_version : String
deriving DecidableEq, Repr

/-- Python `str.lower()` as a character-wise map (the stored values are
ASCII identifiers). -/
def pyLower (s : String) : String :=
  String.mk (s.data.map Char.toLower)

/-- The ordered `params` list of tuples built by `create_req_params`; the
source then serializes it with `urlencode` (standard library, outside this
module) behind a question mark, which preserves the order verbatim. -/
def create_req_params_fields (db : SessionMeta) (req_name : String) :
    List (String × String) :=
  [(("reqAttempt"), ("")),
   (("reqName"), req_name),
   (("clienttype"), ("akira")),
   (("uiversion"), db.build_identifier),
   (("browsername"), ("chrome")),
   (("browserversion"), pyLower db.browser_info_version),
   (("osname"), pyLower db.browser_info_os_name),
   (("osversion"), db.browser_info_os_version)]

/-- Python single-character `str.replace(old, new)` on the character
sequence: every occurrence of `old` is replaced by the character list
`new` (empty for deletion). -/
def pyReplaceChar (old : Char) (new : List Char) : List Char → List Char
  | [] => []
  | c :: rest => (if c = old then new else [c]) ++ pyReplaceChar old new rest

/-- The escaping applied to `blobs_dump` in `generate_logblobs_params`:
`blobs_dump.replace('"', '\"').replace(' ', '').replace('#', ' ')`.
In Python the literal between the single quotes of the second argument of
the first replace is one double-quote character, so the first stage maps
the double quote to itself; the second stage deletes every space; the
third turns every hash marker (spaces of the user agent were turned into
hashes before serialization) back into a space. -/
def escape_logblobs_dump (s : String) : String :=
  String.mk (pyReplaceChar '#' [' ']
    (pyReplaceChar ' ' []
      (pyReplaceChar '\x22' ['\x22'] s.data)))

/-- The literal reverse of the stages of `escape_logblobs_dump` that are
not the identity and not a deletion: map each space back to the hash
marker.  The deleted spaces of the serialized payload have no reverse. -/
def unescape_logblobs_dump (s : String) : String :=
  String.mk (pyReplaceChar ' ' ['#'] s.data)

/-- The arguments of `ui.show_error_info` as called by the
`display_error_info` decorator: title `common.get_local_string(30028)`,
the formatted message, `unknown_error=not message`,
`netflix_error=isinstance(exc, MSLError)`. -/
structure ErrorInfo where
  title : String
  message : String
  unknown_err : Bool
  netflix_err : Bool
deriving DecidableEq, Repr

/-- The `error_catching_wrapper` produced by the `display_error_info`
decorator around an operation `f`.  The wrapped call either returns `f x`
unchanged, or, when `f x` fails, emits one `ui.show_error_info`
notification built from the exception (class name, `str` value and
`MSLError` classification are opaque collaborator functions) and re-raises
the same exception.  The returned pair is the outcome together with the
list of notifications shown. -/
def display_error_info_fn {α β ε : Type} (className strOf : ε → String)
    (isMSLError : ε → Bool) (localized30028 : String)
    (f : α → Except ε β) (x : α) : Except ε β × List ErrorInfo :=
  match f x with
  | .ok b => (.ok b, [])
  | .error exc =>
    let message := className exc ++ (": ") ++ strOf exc
    (.error exc,
     [{ title := localized30028, message := message,
        unknown_err := decide (message = ""), netflix_err := isMSLError exc }])

/-- Concrete manifest used by the witnesses: one English 5.1 audio track
with a 100 and a 300 bitrate stream, one video track with an h264 1080p
stream, and two subtitle tracks of which the second is the none-track. -/
def sampleManifest : Manifest :=
  ⟨[⟨("en"), ("5.1"), ("T1"), [⟨("A"), 100⟩, ⟨("B"), 300⟩]⟩],
   [⟨("V1"), [⟨("VD1"), ("h264mpl30"), 1920, 1080⟩]⟩],
   [⟨("S0"), false, ("it")⟩, ⟨("S1"), true, ("")⟩]⟩

/-- Concrete player state used by the witnesses: English 5.1 audio (6
channels) and h264 1920x1080 video. -/
def samplePlayerState : PlayerState :=
  ⟨⟨("en"), 6⟩, ⟨("h264"), 1920, 1080⟩, ⟨("it")⟩, 0⟩

/-- C5: channel counts 1, 2, 6, 8 map to the fixed labels and every other
integer channel count makes the `AUDIO_CHANNELS_CONV` lookup fail, which
inside `_find_audio_data` surfaces as the unsupported-channel-layout
failure instead of any default label. -/
theorem audio_channels_conv_spec (n : Int) :
    ((n ≠ 1 ∧ n ≠ 2 ∧ n ≠ 6 ∧ n ≠ 8) → AUDIO_CHANNELS_CONV n = none)
    ∧ AUDIO_CHANNELS_CONV 1 = some ("1.0")
    ∧ AUDIO_CHANNELS_CONV 2 = some ("2.0")
    ∧ AUDIO_CHANNELS_CONV 6 = some ("5.1")
    ∧ AUDIO_CHANNELS_CONV 8 = some ("7.1")
    ∧ (∀ (conv : String → String) (ps : PlayerState) (m : Manifest),
        ps.currentaudiostream.channels = n → AUDIO_CHANNELS_CONV n = none →
        findAudioData conv ps m = .error (.unsupportedChannelLayout n)) := by
  refine ⟨?_, rfl, rfl, rfl, rfl, ?_⟩
  · intro h
    simp [AUDIO_CHANNELS_CONV, h.1, h.2.1, h.2.2.1, h.2.2.2]
  · intro conv ps m hc hn
    simp [findAudioData, hc, hn]

/-- Witness for C5 at channel counts 3 and 6. -/
theorem audio_channels_conv_spec_witness :
    AUDIO_CHANNELS_CONV 3 = none ∧ AUDIO_CHANNELS_CONV 6 = some ("5.1") :=
  ⟨(audio_channels_conv_spec 3).1 (by decide),
   (audio_channels_conv_spec 6).2.2.2.1⟩

/-- C6: `create_req_params` builds its fields in the exact order
reqAttempt, reqName, clienttype, uiversion, browsername, browserversion,
osname, osversion; the reqName value is the given request name in second
position, the browser version and the OS name are lower-cased. -/
theorem create_req_params_field_order (db : SessionMeta) (req_name : String) :
    (create_req_params_fields db req_name).map Prod.fst
      = [("reqAttempt"), ("reqName"), ("clienttype"), ("uiversion"),
         ("browsername"), ("browserversion"), ("osname"), ("osversion")]
    ∧ (create_req_params_fields db req_name).get? 0 = some (("reqAttempt"), (""))
    ∧ (create_req_params_fields db req_name).get? 1 = some (("reqName"), req_name)
    ∧ (create_req_params_fields db req_name).get? 2 = some (("clienttype"), ("akira"))
    ∧ (create_req_params_fields db req_name).get? 5
        = some (("browserversion"), pyLower db.browser_info_version)
    ∧ (create_req_params_fields db req_name).get? 6
        = some (("osname"), pyLower db.browser_info_os_name)
    ∧ (create_req_params_fields db req_name).length = 8 :=
  ⟨rfl, rfl, rfl, rfl, rfl, rfl, rfl⟩

/-- Witness for C6 at the request name of the engage event. -/
theorem create_req_params_field_order_witness :
    (create_req_params_fields ⟨("bid"), ("84.0"), ("Linux"), ("5.4")⟩
        ("events/engage")).get? 1 = some (("reqName"), ("events/engage")) :=
  (create_req_params_field_order ⟨("bid"), ("84.0"), ("Linux"), ("5.4")⟩
    ("events/engage")).2.2.1

/-- C7: `is_media_changed` is true whenever the previous state is absent;
with a previous state it is true exactly when the audio or the video
stream descriptor differs; in particular two states that agree on audio
and video report no change even when the subtitle descriptor or any other
field differs. -/
theorem is_media_changed_spec (prev ps : PlayerState) :
    is_media_changed none ps = true
    ∧ (is_media_changed (some prev) ps = true ↔
        (ps.currentaudiostream ≠ prev.currentaudiostream
         ∨ ps.currentvideostream ≠ prev.currentvideostream))
    ∧ (ps.currentaudiostream = prev.currentaudiostream →
       ps.currentvideostream = prev.currentvideostream →
       is_media_changed (some prev) ps = false) := by
  refine ⟨rfl, ?_, ?_⟩
  · simp only [is_media_changed]
    constructor
    · intro h
      by_contra hc
      push_neg at hc
      simp [hc.1, hc.2] at h
    · intro h
      rcases h with h | h <;> simp [h]
  · intro h1 h2
    simp [is_media_changed, h1, h2]

/-- Witness for C7: two states identical except for the subtitle
descriptor report no change. -/
theorem is_media_changed_spec_witness :
    is_media_changed
      (some ⟨⟨("en"), 2⟩, ⟨("h264"), 1920, 1080⟩, ⟨("en")⟩, 10⟩)
      (⟨⟨("en"), 2⟩, ⟨("h264"), 1920, 1080⟩, ⟨("it")⟩, 25⟩) = false :=
  (is_media_changed_spec
      (⟨⟨("en"), 2⟩, ⟨("h264"), 1920, 1080⟩, ⟨("en")⟩, 10⟩)
      (⟨⟨("en"), 2⟩, ⟨("h264"), 1920, 1080⟩, ⟨("it")⟩, 25⟩)).2.2
    (by decide) (by decide)

/-- C9: the decorator wrapper returns exactly the wrapped operation's
outcome: on success the result is unchanged and no notification is shown,
on failure the very same failure is re-raised after exactly one
notification built from it is shown; no failure is ever swallowed. -/
theorem display_error_info_spec {α β ε : Type} (className strOf : ε → String)
    (isMSLError : ε → Bool) (title : String) (f : α → Except ε β) (x : α) :
    (display_error_info_fn className strOf isMSLError title f x).1 = f x
    ∧ (∀ b, f x = .ok b →
        display_error_info_fn className strOf isMSLError title f x = (.ok b, []))
    ∧ (∀ e, f x = .error e →
        display_error_info_fn className strOf isMSLError title f x
          = (.error e,
             [{ title := title,
                message := className e ++ (": ") ++ strOf e,
                unknown_err := decide (className e ++ (": ") ++ strOf e = ""),
                netflix_err := isMSLError e }])) := by
  refine ⟨?_, ?_, ?_⟩
  · cases hfx : f x <;> simp [display_error_info_fn, hfx]
  · intro b hb
    simp [display_error_info_fn, hb]
  · intro e he
    simp [display_error_info_fn, he]

/-- Witness for C9: a concrete failing operation is re-raised unchanged
with one notification. -/
theorem display_error_info_spec_witness :
    display_error_info_fn (fun e : String => ("MSLError")) (fun e => e)
        (fun e => true) ("Error")
        (fun u : Unit => (.error ("boom") : Except String Nat)) ()
      = (.error ("boom"),
         [{ title := ("Error"), message := ("MSLError: boom"),
            unknown_err := false, netflix_err := true }]) :=
  (display_error_info_spec (fun e : String => ("MSLError")) (fun e => e)
      (fun e => true) ("Error")
      (fun u : Unit => (.error ("boom") : Except String Nat)) ()).2.2
    ("boom") rfl

/-- The subtitle loop succeeds with exactly the id of the first none-track:
a decomposition with no earlier none-track. -/
theorem findSubtitleLoop_ok_iff :
    ∀ (l : List SubtitleTrack) (tid : String),
      findSubtitleLoop l = .ok tid ↔
        ∃ pre t post, l = pre ++ t :: post ∧ t.isNoneTrack = true
          ∧ (∀ u ∈ pre, u.isNoneTrack = false) ∧ tid = t.new_track_id := by
  intro l
  induction l with
  | nil =>
    intro tid
    constructor
    · intro h
      simp [findSubtitleLoop] at h
    · rintro ⟨pre, t, post, h, -, -, -⟩
      exact absurd h (by simp)
  | cons a rest ih =>
    intro tid
    by_cases ha : a.isNoneTrack = true
    · constructor
      · intro h
        simp only [findSubtitleLoop, ha, if_true, Except.ok.injEq] at h
        exact ⟨[], a, rest, rfl, ha, by simp, h.symm⟩
      · rintro ⟨pre, t, post, hdec, ht, hpre, htid⟩
        cases pre with
        | nil =>
          simp only [List.nil_append, List.cons.injEq] at hdec
          obtain ⟨hat, hrp⟩ := hdec
          subst hat
          simp [findSubtitleLoop, ha, htid]
        | cons u pre =>
          simp only [List.cons_append, List.cons.injEq] at hdec
          have hu : u.isNoneTrack = false := hpre u (by simp)
          rw [hdec.1] at ha
          rw [hu] at ha
          exact absurd ha (by simp)
    · rw [Bool.not_eq_true] at ha
      have hstep : findSubtitleLoop (a :: rest) = findSubtitleLoop rest := by
        simp [findSubtitleLoop, ha]
      rw [hstep, ih tid]
      constructor
      · rintro ⟨pre, t, post, hdec, ht, hpre, htid⟩
        refine ⟨a :: pre, t, post, by rw [hdec, List.cons_append], ht, ?_, htid⟩
        intro u hu
        rcases List.mem_cons.mp hu with h | h
        · rw [h]; exact ha
        · exact hpre u h
      · rintro ⟨pre, t, post, hdec, ht, hpre, htid⟩
        cases pre with
        | nil =>
          simp only [List.nil_append, List.cons.injEq] at hdec
          rw [← hdec.1] at ht
          rw [ha] at ht
          exact absurd ht (by simp)
        | cons u pre =>
          simp only [List.cons_append, List.cons.injEq] at hdec
          refine ⟨pre, t, post, hdec.2, ht, ?_, htid⟩
          intro v hv
          exact hpre v (by simp [hv])

/-- The subtitle loop fails exactly when no track is a none-track. -/
theorem findSubtitleLoop_err_iff :
    ∀ l : List SubtitleTrack,
      findSubtitleLoop l = .error (.trackNotFound .subtitle) ↔
        ∀ t ∈ l, t.isNoneTrack = false := by
  intro l
  induction l with
  | nil => simp [findSubtitleLoop]
  | cons a rest ih =>
    by_cases ha : a.isNoneTrack = true
    · simp [findSubtitleLoop, ha]
    · rw [Bool.not_eq_true] at ha
      simp [findSubtitleLoop, ha, ih]

/-- The subtitle loop never reads the language field. -/
theorem findSubtitleLoop_map_lang (g : SubtitleTrack → String) :
    ∀ l : List SubtitleTrack,
      findSubtitleLoop (l.map (fun t => { t with language := g t }))
        = findSubtitleLoop l := by
  intro l
  induction l with
  | nil => rfl
  | cons a rest ih =>
    by_cases ha : a.isNoneTrack = true
    · simp [findSubtitleLoop, ha]
    · rw [Bool.not_eq_true] at ha
      simp [findSubtitleLoop, ha, ih]

/-- C8: `find_subtitle` returns the `new_track_id` of the first track in
`timedtexttracks` order whose `isNoneTrack` is true, fails with the
subtitle track-not-found error when no such track exists, and is invariant
under any relabelling of the tracks' languages (it never selects by
language or format). -/
theorem find_subtitle_spec (m : Manifest) :
    (∀ tid, findSubtitleData m = .ok tid ↔
      ∃ pre t post, m.timedtexttracks = pre ++ t :: post
        ∧ t.isNoneTrack = true
        ∧ (∀ u ∈ pre, u.isNoneTrack = false)
        ∧ tid = t.new_track_id)
    ∧ (findSubtitleData m = .error (.trackNotFound .subtitle) ↔
        ∀ t ∈ m.timedtexttracks, t.isNoneTrack = false)
    ∧ (∀ g : SubtitleTrack → String,
        findSubtitleData
          { m with timedtexttracks :=
              m.timedtexttracks.map (fun t => { t with language := g t }) }
          = findSubtitleData m) := by
  refine ⟨fun tid => findSubtitleLoop_ok_iff m.timedtexttracks tid,
    findSubtitleLoop_err_iff m.timedtexttracks,
    fun g => findSubtitleLoop_map_lang g m.timedtexttracks⟩

/-- Witness for C8: on the sample manifest the second subtitle track is
the first none-track and is selected. -/
theorem find_subtitle_spec_witness :
    findSubtitleData sampleManifest = .ok ("S1") :=
  ((find_subtitle_spec sampleManifest).1 ("S1")).mpr
    ⟨[⟨("S0"), false, ("it")⟩], ⟨("S1"), true, ("")⟩, [], rfl, rfl,
     by decide, rfl⟩

/-- The inner video loop returns exactly the first matching stream. -/
theorem findVideoStreamLoop_some_iff (codec : String) (wd hg : Int) :
    ∀ (l : List VideoStream) (s : VideoStream),
      findVideoStreamLoop codec wd hg l = some s ↔
        ∃ spre spost, l = spre ++ s :: spost
          ∧ videoStreamMatch codec wd hg s = true
          ∧ ∀ v ∈ spre, videoStreamMatch codec wd hg v = false := by
  intro l
  induction l with
  | nil =>
    intro s
    constructor
    · intro h
      simp [findVideoStreamLoop] at h
    · rintro ⟨spre, spost, h, -, -⟩
      exact absurd h (by simp)
  | cons a rest ih =>
    intro s
    by_cases ha : videoStreamMatch codec wd hg a = true
    · constructor
      · intro h
        simp only [findVideoStreamLoop, ha, if_true, Option.some.injEq] at h
        exact ⟨[], rest, by rw [h]; simp, by rw [← h]; exact ha, by simp⟩
      · rintro ⟨spre, spost, hdec, hs, hpre⟩
        cases spre with
        | nil =>
          simp only [List.nil_append, List.cons.injEq] at hdec
          obtain ⟨has, hrp⟩ := hdec
          subst has
          simp [findVideoStreamLoop, ha]
        | cons u spre =>
          simp only [List.cons_append, List.cons.injEq] at hdec
          have hu : videoStreamMatch codec wd hg u = false := hpre u (by simp)
          rw [hdec.1] at ha
          rw [hu] at ha
          exact absurd ha (by simp)
    · rw [Bool.not_eq_true] at ha
      have hstep : findVideoStreamLoop codec wd hg (a :: rest)
          = findVideoStreamLoop codec wd hg rest := by
        simp [findVideoStreamLoop, ha]
      rw [hstep, ih s]
      constructor
      · rintro ⟨spre, spost, hdec, hs, hpre⟩
        refine ⟨a :: spre, spost, by rw [hdec, List.cons_append], hs, ?_⟩
        intro v hv
        rcases List.mem_cons.mp hv with hv | hv
        · rw [hv]; exact ha
        · exact hpre v hv
      · rintro ⟨spre, spost, hdec, hs, hpre⟩
        cases spre with
        | nil =>
          simp only [List.nil_append, List.cons.injEq] at hdec
          rw [← hdec.1] at hs
          rw [ha] at hs
          exact absurd hs (by simp)
        | cons u spre =>
          simp only [List.cons_append, List.cons.injEq] at hdec
          refine ⟨spre, spost, hdec.2, hs, ?_⟩
          intro v hv
          exact hpre v (by simp [hv])

/-- The inner video loop fails exactly when no stream matches. -/
theorem findVideoStreamLoop_none_iff (codec : String) (wd hg : Int) :
    ∀ l : List VideoStream,
      findVideoStreamLoop codec wd hg l = none ↔
        ∀ v ∈ l, videoStreamMatch codec wd hg v = false := by
  intro l
  induction l with
  | nil => simp [findVideoStreamLoop]
  | cons a rest ih =>
    by_cases ha : videoStreamMatch codec wd hg a = true
    · simp [findVideoStreamLoop, ha]
    · rw [Bool.not_eq_true] at ha
      simp [findVideoStreamLoop, ha, ih]

/-- The outer video loop fails exactly when no stream of any track
matches. -/
theorem findVideoLoop_err_iff (codec : String) (wd hg : Int) :
    ∀ l : List VideoTrack,
      findVideoLoop codec wd hg l = .error (.trackNotFound .video) ↔
        ∀ t ∈ l, ∀ v ∈ t.streams, videoStreamMatch codec wd hg v = false := by
  intro l
  induction l with
  | nil => simp [findVideoLoop]
  | cons a rest ih =>
    cases hinner : findVideoStreamLoop codec wd hg a.streams with
    | some s =>
      constructor
      · intro hcontra
        simp [findVideoLoop, hinner] at hcontra
      · intro hall
        have hnone : findVideoStreamLoop codec wd hg a.streams = none :=
          (findVideoStreamLoop_none_iff codec wd hg a.streams).mpr
            (hall a (by simp))
        rw [hnone] at hinner
        exact absurd hinner (by simp)
    | none =>
      have hstep : findVideoLoop codec wd hg (a :: rest)
          = findVideoLoop codec wd hg rest := by
        simp [findVideoLoop, hinner]
      rw [hstep, ih]
      constructor
      · intro hall
        intro t ht
        rcases List.mem_cons.mp ht with ht | ht
        · rw [ht]
          exact (findVideoStreamLoop_none_iff codec wd hg a.streams).mp hinner
        · exact hall t ht
      · intro hall t ht
        exact hall t (by simp [ht])

/-- A success of the outer video loop is the first matching stream in
nested iteration order. -/
theorem findVideoLoop_ok_first (codec : String) (wd hg : Int) :
    ∀ (l : List VideoTrack) (dl tid : String),
      findVideoLoop codec wd hg l = .ok (dl, tid) →
        ∃ pre t post spre s spost,
          l = pre ++ t :: post
          ∧ t.streams = spre ++ s :: spost
          ∧ (∀ u ∈ pre, ∀ v ∈ u.streams, videoStreamMatch codec wd hg v = false)
          ∧ (∀ v ∈ spre, videoStreamMatch codec wd hg v = false)
          ∧ videoStreamMatch codec wd hg s = true
          ∧ dl = s.downloadable_id ∧ tid = t.new_track_id := by
  intro l
  induction l with
  | nil =>
    intro dl tid hcontra
    simp [findVideoLoop] at hcontra
  | cons a rest ih =>
    intro dl tid hok
    cases hinner : findVideoStreamLoop codec wd hg a.streams with
    | some s =>
      simp only [findVideoLoop, hinner, Except.ok.injEq, Prod.mk.injEq] at hok
      obtain ⟨spre, spost, hdec, hs, hpre⟩ :=
        (findVideoStreamLoop_some_iff codec wd hg a.streams s).mp hinner
      exact ⟨[], a, rest, spre, s, spost, rfl, hdec, by simp, hpre, hs,
        hok.1.symm, hok.2.symm⟩
    | none =>
      have hstep : findVideoLoop codec wd hg (a :: rest)
          = findVideoLoop codec wd hg rest := by
        simp [findVideoLoop, hinner]
      rw [hstep] at hok
      obtain ⟨pre, t, post, spre, s, spost, hdec, hstr, hpre, hspre, hs, hdl, htid⟩ :=
        ih dl tid hok
      refine ⟨a :: pre, t, post, spre, s, spost, by rw [hdec, List.cons_append],
        hstr, ?_, hspre, hs, hdl, htid⟩
      intro u hu
      rcases List.mem_cons.mp hu with hu | hu
      · rw [hu]
        exact (findVideoStreamLoop_none_iff codec wd hg a.streams).mp hinner
      · exact hpre u hu

/-- C2: `find_video` returns the first stream in nested iteration order
(tracks outer, streams inner) whose `content_profile` contains the
player codec as a substring and whose `res_w` and `res_h` equal the
reported width and height exactly; perturbing the reported width or
height by 1 makes a matching stream no longer match; and when no stream
matches the operation fails. -/
theorem find_video_first_match_spec (ps : PlayerState) (m : Manifest) :
    (findVideoData ps m = .error (.trackNotFound .video) ↔
      ∀ t ∈ m.video_tracks, ∀ v ∈ t.streams,
        videoStreamMatch ps.currentvideostream.codec
          ps.currentvideostream.width ps.currentvideostream.height v = false)
    ∧ (∀ dl tid, findVideoData ps m = .ok (dl, tid) →
        ∃ pre t post spre s spost,
          m.video_tracks = pre ++ t :: post
          ∧ t.streams = spre ++ s :: spost
          ∧ (∀ u ∈ pre, ∀ v ∈ u.streams,
              videoStreamMatch ps.currentvideostream.codec
                ps.currentvideostream.width ps.currentvideostream.height v = false)
          ∧ (∀ v ∈ spre,
              videoStreamMatch ps.currentvideostream.codec
                ps.currentvideostream.width ps.currentvideostream.height v = false)
          ∧ videoStreamMatch ps.currentvideostream.codec
              ps.currentvideostream.width ps.currentvideostream.height s = true
          ∧ dl = s.downloadable_id ∧ tid = t.new_track_id)
    ∧ (∀ (codec : String) (wd hg : Int) (s : VideoStream),
        videoStreamMatch codec wd hg s = true →
          videoStreamMatch codec (wd + 1) hg s = false
          ∧ videoStreamMatch codec (wd - 1) hg s = false
          ∧ videoStreamMatch codec wd (hg + 1) s = false
          ∧ videoStreamMatch codec wd (hg - 1) s = false) := by
  refine ⟨findVideoLoop_err_iff _ _ _ m.video_tracks,
    fun dl tid hok => findVideoLoop_ok_first _ _ _ m.video_tracks dl tid hok,
    ?_⟩
  intro codec wd hg s hs
  obtain ⟨⟨hc, hwc⟩, hhc⟩ :
      (strContains s.content_profile codec = true ∧ wd = s.res_w)
        ∧ hg = s.res_h := by
    simpa [videoStreamMatch, Bool.and_eq_true, decide_eq_true_eq] using hs
  have hw1 : decide (wd + 1 = s.res_w) = false := decide_eq_false (by omega)
  have hw2 : decide (wd - 1 = s.res_w) = false := decide_eq_false (by omega)
  have hh1 : decide (hg + 1 = s.res_h) = false := decide_eq_false (by omega)
  have hh2 : decide (hg - 1 = s.res_h) = false := decide_eq_false (by omega)
  refine ⟨by simp [videoStreamMatch, hw1], by simp [videoStreamMatch, hw2],
    by simp [videoStreamMatch, hh1], by simp [videoStreamMatch, hh2]⟩

/-- Witness for C2: on the sample manifest the reported h264 1920x1080
video maps to the single stream, whose profile string h264mpl30 strictly
contains the codec. -/
theorem find_video_first_match_spec_witness :
    findVideoData samplePlayerState sampleManifest = .ok (("VD1"), ("V1"))
    ∧ ∃ pre t post spre s spost,
        sampleManifest.video_tracks = pre ++ t :: post
        ∧ t.streams = spre ++ s :: spost
        ∧ (∀ u ∈ pre, ∀ v ∈ u.streams,
            videoStreamMatch samplePlayerState.currentvideostream.codec
              samplePlayerState.currentvideostream.width
              samplePlayerState.currentvideostream.height v = false)
        ∧ (∀ v ∈ spre,
            videoStreamMatch samplePlayerState.currentvideostream.codec
              samplePlayerState.currentvideostream.width
              samplePlayerState.currentvideostream.height v = false)
        ∧ videoStreamMatch samplePlayerState.currentvideostream.codec
            samplePlayerState.currentvideostream.width
            samplePlayerState.currentvideostream.height s = true
        ∧ ("VD1") = s.downloadable_id ∧ ("V1") = t.new_track_id :=
  ⟨rfl,
   (find_video_first_match_spec samplePlayerState sampleManifest).2.1
     ("VD1") ("V1") rfl⟩

/-- Invariant of the Python `max` fold: the result either is the initial
accumulator and nothing in the list beats it, or it sits in the list with
everything before it (and the accumulator) strictly below it and
everything after it at most equal — the first occurrence of the maximum
wins. -/
theorem foldl_maxStep_first :
    ∀ (l : List AudioStream) (acc : AudioStream),
      (l.foldl maxStep acc = acc ∧ ∀ x ∈ l, x.bitrate ≤ acc.bitrate)
      ∨ (∃ pre post, l = pre ++ (l.foldl maxStep acc) :: post
          ∧ acc.bitrate < (l.foldl maxStep acc).bitrate
          ∧ (∀ x ∈ pre, x.bitrate < (l.foldl maxStep acc).bitrate)
          ∧ (∀ x ∈ post, x.bitrate ≤ (l.foldl maxStep acc).bitrate)) := by
  intro l
  induction l with
  | nil =>
    intro acc
    left
    exact ⟨rfl, by simp⟩
  | cons x xs ih =>
    intro acc
    have hfold : (x :: xs).foldl maxStep acc = xs.foldl maxStep (maxStep acc x) := rfl
    by_cases hx : acc.bitrate < x.bitrate
    · have hstep : maxStep acc x = x := if_pos hx
      rw [hfold, hstep]
      rcases ih x with ⟨heq, hall⟩ | ⟨pre, post, hdec, hlt, hpre, hpost⟩
      · right
        refine ⟨[], xs, by rw [heq]; simp, by rw [heq]; exact hx, by simp, ?_⟩
        intro y hy
        rw [heq]
        exact hall y hy
      · right
        refine ⟨x :: pre, post, by rw [List.cons_append, ← hdec], ?_, ?_, hpost⟩
        · exact lt_trans hx hlt
        · intro y hy
          rcases List.mem_cons.mp hy with hy | hy
          · rw [hy]; exact hlt
          · exact hpre y hy
    · have hstep : maxStep acc x = acc := if_neg hx
      have hxle : x.bitrate ≤ acc.bitrate := le_of_not_lt hx
      rw [hfold, hstep]
      rcases ih acc with ⟨heq, hall⟩ | ⟨pre, post, hdec, hlt, hpre, hpost⟩
      · left
        refine ⟨heq, ?_⟩
        intro y hy
        rcases List.mem_cons.mp hy with hy | hy
        · rw [hy]; exact hxle
        · exact hall y hy
      · right
        refine ⟨x :: pre, post, by rw [List.cons_append, ← hdec], hlt, ?_, hpost⟩
        intro y hy
        rcases List.mem_cons.mp hy with hy | hy
        · rw [hy]; exact lt_of_le_of_lt hxle hlt
        · exact hpre y hy

/-- When the filter on (language, channels) keeps exactly one track, the
audio loop stops at that track and selects from its streams. -/
theorem findAudioLoop_unique_track (language channels : String) :
    ∀ (l : List AudioTrack) (t : AudioTrack),
      l.filter (fun tr =>
          decide (tr.language = language ∧ tr.channels = channels)) = [t] →
      findAudioLoop language channels l =
        (match maxByBitrate t.streams with
         | none => .error .emptyStreams
         | some stream => .ok (stream.downloadable_id, t.new_track_id)) := by
  intro l
  induction l with
  | nil =>
    intro t h
    simp at h
  | cons a rest ih =>
    intro t h
    by_cases ha : a.language = language ∧ a.channels = channels
    · rw [List.filter_cons_of_pos (by simpa using ha)] at h
      simp only [List.cons.injEq] at h
      obtain ⟨hat, hrest⟩ := h
      subst hat
      simp [findAudioLoop, ha]
    · rw [List.filter_cons_of_neg (by simpa using ha)] at h
      have hstep : findAudioLoop language channels (a :: rest)
          = findAudioLoop language channels rest := by
        simp [findAudioLoop, ha]
      rw [hstep]
      exact ih t h

/-- C1: when the player channel count is in the fixed table and exactly
one audio track carries the normalized language and channel label,
`find_audio` returns the downloadable id of that track's
maximum-bitrate stream — the first one in listed order on a bitrate tie —
paired with the track's `new_track_id`. -/
theorem find_audio_unique_max (conv : String → String) (ps : PlayerState)
    (m : Manifest) (t : AudioTrack) (ch : String)
    (hch : AUDIO_CHANNELS_CONV ps.currentaudiostream.channels = some ch)
    (huniq : m.audio_tracks.filter (fun tr =>
        decide (tr.language = convertLanguage conv ps.currentaudiostream.language
          ∧ tr.channels = ch)) = [t])
    (hne : t.streams ≠ []) :
    ∃ stream pre post,
      findAudioData conv ps m = .ok (stream.downloadable_id, t.new_track_id)
      ∧ t.streams = pre ++ stream :: post
      ∧ (∀ x ∈ pre, x.bitrate < stream.bitrate)
      ∧ (∀ x ∈ post, x.bitrate ≤ stream.bitrate) := by
  obtain ⟨s0, rest, hstreams⟩ : ∃ s0 rest, t.streams = s0 :: rest := by
    cases hs : t.streams with
    | nil => exact absurd hs hne
    | cons s0 rest => exact ⟨s0, rest, rfl⟩
  have hloop := findAudioLoop_unique_track
    (convertLanguage conv ps.currentaudiostream.language) ch m.audio_tracks t huniq
  rw [hstreams] at hloop
  simp only [maxByBitrate] at hloop
  have hdata : findAudioData conv ps m
      = .ok ((rest.foldl maxStep s0).downloadable_id, t.new_track_id) := by
    unfold findAudioData
    rw [hch]
    exact hloop
  have hinv := foldl_maxStep_first rest s0
  obtain ⟨r, hr⟩ : ∃ r, rest.foldl maxStep s0 = r := ⟨_, rfl⟩
  rw [hr] at hdata hinv
  rcases hinv with ⟨heq, hall⟩ | ⟨pre, post, hdec, hlt, hpre, hpost⟩
  · refine ⟨r, [], rest, hdata, ?_, by simp, ?_⟩
    · rw [hstreams, heq]
      simp
    · intro x hx
      rw [heq]
      exact hall x hx
  · refine ⟨r, s0 :: pre, post, hdata, ?_, ?_, hpost⟩
    · rw [hstreams, hdec, List.cons_append]
    · intro x hx
      rcases List.mem_cons.mp hx with hx | hx
      · rw [hx]; exact hlt
      · exact hpre x hx

/-- Witness for C1, the end-to-end scenario of the spec: English 6-channel
player audio against the sample manifest track with streams of bitrate
100 then 300 selects the 300 stream B on track T1. -/
theorem find_audio_unique_max_witness :
    (sampleManifest.audio_tracks.filter (fun tr =>
        decide (tr.language = convertLanguage (fun s => s)
            samplePlayerState.currentaudiostream.language
          ∧ tr.channels = ("5.1")))
        = [⟨("en"), ("5.1"), ("T1"), [⟨("A"), 100⟩, ⟨("B"), 300⟩]⟩])
    ∧ ∃ stream pre post,
        findAudioData (fun s => s) samplePlayerState sampleManifest
          = .ok (stream.downloadable_id, ("T1"))
        ∧ ([⟨("A"), 100⟩, ⟨("B"), 300⟩] : List AudioStream)
            = pre ++ stream :: post
        ∧ (∀ x ∈ pre, x.bitrate < stream.bitrate)
        ∧ (∀ x ∈ post, x.bitrate ≤ stream.bitrate) :=
  ⟨by decide,
   find_audio_unique_max (fun s => s) samplePlayerState sampleManifest
     (⟨("en"), ("5.1"), ("T1"), [⟨("A"), 100⟩, ⟨("B"), 300⟩]⟩) ("5.1")
     rfl (by decide) (by decide)⟩

/-- The audio loop skips a block of non-matching tracks. -/
theorem findAudioLoop_append_skip (language channels : String) :
    ∀ (pre rest : List AudioTrack),
      (∀ u ∈ pre, ¬(u.language = language ∧ u.channels = channels)) →
      findAudioLoop language channels (pre ++ rest)
        = findAudioLoop language channels rest := by
  intro pre
  induction pre with
  | nil =>
    intro rest h
    rfl
  | cons a pre ih =>
    intro rest h
    have ha : ¬(a.language = language ∧ a.channels = channels) := h a (by simp)
    have hstep : findAudioLoop language channels ((a :: pre) ++ rest)
        = findAudioLoop language channels (pre ++ rest) := by
      simp [findAudioLoop, ha]
    rw [hstep]
    exact ih rest (fun u hu => h u (by simp [hu]))

/-- C10: when the first audio track matching the normalized language and
channel label has an empty streams list, `find_audio` fails with the
empty-sequence failure of `max([])`; it does not raise the
unable-to-find-audio-data error and does not continue the scan to any
later matching track. -/
theorem find_audio_empty_streams_fails (conv : String → String)
    (ps : PlayerState) (m : Manifest) (t : AudioTrack) (ch : String)
    (pre post : List AudioTrack)
    (hch : AUDIO_CHANNELS_CONV ps.currentaudiostream.channels = some ch)
    (hdec : m.audio_tracks = pre ++ t :: post)
    (hpre : ∀ u ∈ pre,
      ¬(u.language = convertLanguage conv ps.currentaudiostream.language
        ∧ u.channels = ch))
    (hlang : t.language = convertLanguage conv ps.currentaudiostream.language)
    (hchan : t.channels = ch)
    (hempty : t.streams = []) :
    findAudioData conv ps m = .error .emptyStreams
    ∧ findAudioData conv ps m ≠ .error (.trackNotFound .audio) := by
  have hmain : findAudioData conv ps m = .error .emptyStreams := by
    unfold findAudioData
    rw [hch, hdec]
    show findAudioLoop (convertLanguage conv ps.currentaudiostream.language) ch
        (pre ++ t :: post) = Except.error MatchError.emptyStreams
    rw [findAudioLoop_append_skip
      (convertLanguage conv ps.currentaudiostream.language) ch pre (t :: post) hpre]
    simp [findAudioLoop, hlang, hchan, hempty, maxByBitrate]
  refine ⟨hmain, ?_⟩
  rw [hmain]
  intro hcontra
  simp at hcontra

/-- Witness for C10: the first matching track T0 has no streams and a
later matching track T1 with a stream exists, yet the call fails with the
empty-sequence failure instead of selecting from T1. -/
theorem find_audio_empty_streams_fails_witness :
    findAudioData (fun s => s) samplePlayerState
      (⟨[⟨("en"), ("5.1"), ("T0"), []⟩,
         ⟨("en"), ("5.1"), ("T1"), [⟨("A"), 100⟩]⟩], [], []⟩ : Manifest)
      = .error .emptyStreams :=
  (find_audio_empty_streams_fails (fun s => s) samplePlayerState
    (⟨[⟨("en"), ("5.1"), ("T0"), []⟩,
       ⟨("en"), ("5.1"), ("T1"), [⟨("A"), 100⟩]⟩], [], []⟩ : Manifest)
    (⟨("en"), ("5.1"), ("T0"), []⟩) ("5.1") []
    [⟨("en"), ("5.1"), ("T1"), [⟨("A"), 100⟩]⟩]
    rfl rfl (by decide) (by decide) rfl rfl).1

/-- C3: `build_media_tag` propagates the first matcher failure unchanged
and, when all three matchers succeed, returns the play times with
`total = position - 1`, the same duration on the single audio entry and
the single video entry, an empty text list, and the three track ids. -/
theorem build_media_tag_spec (conv : String → String)
    (f : List AudioTrack → List AudioTrack) (ps : PlayerState)
    (m : Manifest) (position : Int) :
    (∀ e, findAudioData conv ps (applyLangManifest f m) = .error e →
        buildMediaTag conv f ps m position = .error e)
    ∧ (∀ a e, findAudioData conv ps (applyLangManifest f m) = .ok a →
        findVideoData ps (applyLangManifest f m) = .error e →
        buildMediaTag conv f ps m position = .error e)
    ∧ (∀ a v e, findAudioData conv ps (applyLangManifest f m) = .ok a →
        findVideoData ps (applyLangManifest f m) = .ok v →
        findSubtitleData (applyLangManifest f m) = .error e →
        buildMediaTag conv f ps m position = .error e)
    ∧ (∀ a v tid, findAudioData conv ps (applyLangManifest f m) = .ok a →
        findVideoData ps (applyLangManifest f m) = .ok v →
        findSubtitleData (applyLangManifest f m) = .ok tid →
        buildMediaTag conv f ps m position =
          .ok ({ total := position - 1,
                 audio := [{ downloadableId := a.1, duration := position - 1 }],
                 video := [{ downloadableId := v.1, duration := position - 1 }],
                 text := [] }, v.2, a.2, tid)) := by
  refine ⟨?_, ?_, ?_, ?_⟩
  · intro e h1
    simp [buildMediaTag, h1, Bind.bind, Except.bind]
  · intro a e h1 h2
    simp [buildMediaTag, h1, h2, Bind.bind, Except.bind]
  · intro a v e h1 h2 h3
    simp [buildMediaTag, h1, h2, h3, Bind.bind, Except.bind]
  · intro a v tid h1 h2 h3
    simp [buildMediaTag, h1, h2, h3, Bind.bind, Except.bind, Pure.pure, Except.pure]

/-- Witness for C3, the documented off-by-one: position 5000 yields a tag
whose total and per-entry durations are 4999, with an empty text list. -/
theorem build_media_tag_spec_witness :
    findAudioData (fun s => s) samplePlayerState
        (applyLangManifest (fun l => l) sampleManifest) = .ok (("B"), ("T1"))
    ∧ findVideoData samplePlayerState
        (applyLangManifest (fun l => l) sampleManifest) = .ok (("VD1"), ("V1"))
    ∧ findSubtitleData (applyLangManifest (fun l => l) sampleManifest) = .ok ("S1")
    ∧ buildMediaTag (fun s => s) (fun l => l) samplePlayerState sampleManifest 5000
        = .ok ({ total := 4999,
                 audio := [{ downloadableId := ("B"), duration := 4999 }],
                 video := [{ downloadableId := ("VD1"), duration := 4999 }],
                 text := [] }, ("V1"), ("T1"), ("S1")) :=
  ⟨rfl, rfl, rfl,
   (build_media_tag_spec (fun s => s) (fun l => l) samplePlayerState
      sampleManifest 5000).2.2.2 (("B"), ("T1")) (("VD1"), ("V1")) ("S1")
     rfl rfl rfl⟩

/-- Replacing a single character by itself is the identity: the first
escaping stage `.replace('"', '\"')` of `generate_logblobs_params`
(whose second argument is one double-quote character in Python) changes
nothing. -/
theorem pyReplaceChar_self (a : Char) :
    ∀ l : List Char, pyReplaceChar a [a] l = l := by
  intro l
  induction l with
  | nil => rfl
  | cons c rest ih =>
    by_cases hc : c = a
    · subst hc
      simp [pyReplaceChar, ih]
    · simp [pyReplaceChar, hc, ih]

/-- Replacement of an absent character is the identity. -/
theorem pyReplaceChar_not_mem (a : Char) (new : List Char) :
    ∀ l : List Char, a ∉ l → pyReplaceChar a new l = l := by
  intro l
  induction l with
  | nil =>
    intro h
    rfl
  | cons c rest ih =>
    intro h
    have hc : ¬(c = a) := fun hc => h (by simp [hc])
    have hrest : a ∉ rest := fun hr => h (by simp [hr])
    simp [pyReplaceChar, hc, ih hrest]

/-- On a space-free character list, turning hashes into spaces and then
spaces back into hashes is the identity. -/
theorem pyReplaceChar_hash_roundtrip :
    ∀ l : List Char, (' ') ∉ l →
      pyReplaceChar ' ' ['#'] (pyReplaceChar '#' [' '] l) = l := by
  intro l
  induction l with
  | nil =>
    intro h
    rfl
  | cons c rest ih =>
    intro h
    have hc : ¬(c = ' ') := fun hc => h (by simp [hc])
    have hrest : (' ') ∉ rest := fun hr => h (by simp [hr])
    by_cases hch : c = '#'
    · subst hch
      simp [pyReplaceChar, ih hrest]
    · simp [pyReplaceChar, hch, hc, ih hrest]

/-- Counterexample to C4: the two-stage escaping of
`generate_logblobs_params` is not injective and not losslessly
reversible.  Two distinct serialized payloads that differ only by a space
inside a field value escape to the same string, and the literal reverse
substitution fails to reconstruct a payload containing the separator
spaces that `json.dumps` emits. -/
theorem logblobs_escape_not_injective :
    escape_logblobs_dump ("\x7b\x22osplatform\x22: \x22a b\x22\x7d")
      = escape_logblobs_dump ("\x7b\x22osplatform\x22: \x22ab\x22\x7d")
    ∧ ("\x7b\x22osplatform\x22: \x22a b\x22\x7d" : String)
        ≠ ("\x7b\x22osplatform\x22: \x22ab\x22\x7d")
    ∧ unescape_logblobs_dump
        (escape_logblobs_dump ("\x7b\x22entries\x22: []\x7d"))
        ≠ ("\x7b\x22entries\x22: []\x7d") := by
  refine ⟨by decide, by decide, by decide⟩

/-- C4 (amended): the quote stage of the escaping is the identity, and on
serialized payloads that contain no space character the remaining
transform only turns hash markers into spaces, so mapping each space of
the output back to a hash reconstructs the original exactly; payloads
containing spaces (as the actual `json.dumps` output does) are not
reconstructible. -/
theorem logblobs_escape_reversible_spaceless (s : String)
    (h : (' ') ∉ s.data) :
    unescape_logblobs_dump (escape_logblobs_dump s) = s
    ∧ (∀ u : String, pyReplaceChar '\x22' ['\x22'] u.data = u.data) := by
  constructor
  · have hdata : (escape_logblobs_dump s).data
        = pyReplaceChar '#' [' '] s.data := by
      show pyReplaceChar '#' [' ']
          (pyReplaceChar ' ' [] (pyReplaceChar '\x22' ['\x22'] s.data))
        = pyReplaceChar '#' [' '] s.data
      rw [pyReplaceChar_self, pyReplaceChar_not_mem ' ' [] s.data h]
    show String.mk (pyReplaceChar ' ' ['#'] (escape_logblobs_dump s).data) = s
    rw [hdata, pyReplaceChar_hash_roundtrip s.data h]
  · intro u
    exact pyReplaceChar_self '\x22' u.data

/-- Witness for the amended C4 on a space-free payload fragment. -/
theorem logblobs_escape_reversible_spaceless_witness :
    ((' ') ∉ ("\x7b\x22a\x22:1\x7d" : String).data)
    ∧ unescape_logblobs_dump (escape_logblobs_dump ("\x7b\x22a\x22:1\x7d"))
        = ("\x7b\x22a\x22:1\x7d") :=
  ⟨by decide,
   (logblobs_escape_reversible_spaceless ("\x7b\x22a\x22:1\x7d") (by decide)).1⟩
